import Mathlib

/-!
Verification of the conversion-orchestration core of Dockling-WINGUI.

The Python sources are shallowly embedded:
* `progress_tracker.py` — `ConversionStats`, `ProgressTracker` (pure state,
  with every internal `time.time()` read of a method passed in as a `now : ℚ`
  argument; Python floats are modelled as exact rationals `ℚ`, `int(x)` as
  truncation toward zero `pyInt`, `str.lower()` as ASCII lowercasing).
* `convert_to_markdown.py` — `DocumentConversionStats`,
  `generate_unique_output_name`, and `convert_documents` (the job driver
  loop), with the docling engine's `convert_all` result stream modelled as a
  lazily consumed list of per-item results or a crash, `stop_check()` as a
  boolean function of the iteration index at which it is read, and the
  `progress_callback` channel recorded as an explicit message trace.
* `gui_controller.py` — `ConversionController._conversion_worker`, which runs
  the conversion and appends exactly one terminal queue message.

Messages sent through the Python `logging` module reach the GUI queue through
a separate `LogCapture` handler; they are all `log`-type messages and are not
part of the `progress_callback` channel modelled here.
-/

/- ------------------------------------------------------------------ -/
/- Definitions: the shallow embedding.                                 -/
/- ------------------------------------------------------------------ -/

/-- Python `int(x)` for a float/rational: truncation toward zero. -/
def pyInt (q : ℚ) : Int := if 0 ≤ q then q.floor else q.ceil

/-- Python `a % b` on floats (result has the divisor's sign; here `b > 0`). -/
def pyMod (a b : ℚ) : ℚ := a - b * ((a / b).floor : ℚ)

/-- Python `str.lower()`, modelled as ASCII lowercasing of each character
(the status strings fed to the tracker are ASCII literals). -/
def pyLower (s : String) : String := String.mk (s.data.map Char.toLower)

/-- Python `f"{n:02d}"`: zero-pad to two characters. -/
def twoDigits (n : Int) : String := if 0 ≤ n ∧ n < 10 then "0" ++ n.repr else n.repr

/-- `ProgressTracker._format_time`: `HH:MM:SS` rendering.
`hours = int(seconds // 3600)`, `minutes = int((seconds % 3600) // 60)`,
`secs = int(seconds % 60)`. -/
def formatTime (seconds : ℚ) : String :=
  let hours : Int := (seconds / 3600).floor
  let minutes : Int := ((pyMod seconds 3600) / 60).floor
  let secs : Int := pyInt (pyMod seconds 60)
  twoDigits hours ++ ":" ++ twoDigits minutes ++ ":" ++ twoDigits secs

/-- `progress_tracker.ConversionStats`. The Python field `partial` is named
`partialCount` here (`partial` is a Lean keyword). -/
structure ConversionStats where
  success : Nat
  partialCount : Nat
  failed : Nat
  skipped : Nat
deriving DecidableEq, Repr

/-- A fresh `ConversionStats()` (all counters default to `0`). -/
def ConversionStats.init : ConversionStats := ⟨0, 0, 0, 0⟩

/-- `ConversionStats.total_processed`. -/
def ConversionStats.total_processed (s : ConversionStats) : Nat :=
  s.success + s.partialCount + s.failed + s.skipped

/-- `ConversionStats.success_rate`. -/
def ConversionStats.success_rate (s : ConversionStats) : ℚ :=
  let total := s.total_processed
  if total = 0 then 0
  else ((s.success : ℚ) + (s.partialCount : ℚ)) / (total : ℚ) * 100

/-- The dictionary produced by `ConversionStats.to_dict` (and by the worker's
terminal `complete` message); the Python key `'partial'` is the field
`partialCount`. -/
structure StatsDict where
  success : Nat
  partialCount : Nat
  failed : Nat
  skipped : Nat
deriving DecidableEq, Repr

/-- `ConversionStats.to_dict`. -/
def ConversionStats.to_dict (s : ConversionStats) : StatsDict :=
  ⟨s.success, s.partialCount, s.failed, s.skipped⟩

/-- `progress_tracker.ProgressTracker` state. The per-file time dictionaries
are association lists (most recent write first). -/
structure ProgressTracker where
  total_files : Nat
  current_file_index : Nat
  current_filename : String
  start_time : ℚ
  stats : ConversionStats
  file_start_times : List (Nat × ℚ)
  file_end_times : List (Nat × ℚ)
deriving DecidableEq, Repr

/-- `ProgressTracker.__init__(total_files)`; `now` is the `time.time()` read. -/
def ProgressTracker.init (now : ℚ) (total_files : Nat) : ProgressTracker :=
  ⟨total_files, 0, "", now, ConversionStats.init, [], []⟩

/-- `ProgressTracker.start_file(filename, index)`. -/
def ProgressTracker.start_file (t : ProgressTracker) (now : ℚ) (filename : String)
    (index : Nat) : ProgressTracker :=
  { t with current_file_index := index, current_filename := filename,
           file_start_times := (index, now) :: t.file_start_times }

/-- `ProgressTracker.end_file(index)`. -/
def ProgressTracker.end_file (t : ProgressTracker) (now : ℚ) (index : Nat) :
    ProgressTracker :=
  { t with file_end_times := (index, now) :: t.file_end_times }

/-- `ProgressTracker.update_stats(status)`: bumps exactly one counter depending
on the lowercased status string; unrecognized strings fall through unchanged. -/
def ProgressTracker.update_stats (t : ProgressTracker) (status : String) :
    ProgressTracker :=
  let status_lower := pyLower status
  if status_lower = "success" then
    { t with stats := { t.stats with success := t.stats.success + 1 } }
  else if status_lower = "partial" ∨ status_lower = "partial_success" then
    { t with stats := { t.stats with partialCount := t.stats.partialCount + 1 } }
  else if status_lower = "failed" ∨ status_lower = "failure" ∨ status_lower = "error" then
    { t with stats := { t.stats with failed := t.stats.failed + 1 } }
  else if status_lower = "skipped" then
    { t with stats := { t.stats with skipped := t.stats.skipped + 1 } }
  else t

/-- The status strings `update_stats` recognizes. -/
def recognizedKind (status : String) : Bool :=
  let s := pyLower status
  decide (s = "success" ∨ s = "partial" ∨ s = "partial_success" ∨
    s = "failed" ∨ s = "failure" ∨ s = "error" ∨ s = "skipped")

/-- `ProgressTracker.get_progress_percentage`. -/
def ProgressTracker.get_progress_percentage (t : ProgressTracker) : Int :=
  if t.total_files = 0 then 0
  else pyInt (((t.stats.total_processed : ℚ) / (t.total_files : ℚ)) * 100)

/-- `ProgressTracker.get_current_file_percentage`: the body is `return None`
although the declared return type is `int`. -/
def ProgressTracker.get_current_file_percentage (_t : ProgressTracker) : Option Int :=
  none

/-- `ProgressTracker.get_elapsed_time`. -/
def ProgressTracker.get_elapsed_time (t : ProgressTracker) (now : ℚ) : ℚ :=
  now - t.start_time

/-- `ProgressTracker.get_average_time_per_file`. -/
def ProgressTracker.get_average_time_per_file (t : ProgressTracker) (now : ℚ) : ℚ :=
  let completed := t.stats.total_processed
  if completed = 0 then 0 else t.get_elapsed_time now / (completed : ℚ)

/-- `ProgressTracker.get_eta`: `(seconds_remaining, formatted_string)`. -/
def ProgressTracker.get_eta (t : ProgressTracker) (now : ℚ) : ℚ × String :=
  let processed := t.stats.total_processed
  if processed = 0 then ((0 : ℚ), "Расчет...")
  else
    let remaining_files : Int := (t.total_files : Int) - (processed : Int)
    if remaining_files ≤ 0 then ((0 : ℚ), "00:00:00")
    else
      let avg_time := t.get_average_time_per_file now
      let eta_seconds := (remaining_files : ℚ) * avg_time
      (eta_seconds, formatTime eta_seconds)

/-- `ProgressTracker.get_elapsed_formatted`. -/
def ProgressTracker.get_elapsed_formatted (t : ProgressTracker) (now : ℚ) : String :=
  formatTime (t.get_elapsed_time now)

/-- The dictionary built by `ProgressTracker.to_progress_message`. -/
structure ProgressMessage where
  current : Nat
  total : Nat
  filename : String
  percentage : Int
  current_file_percentage : Option Int
  elapsed : String
  eta : String
  eta_seconds : ℚ
deriving DecidableEq, Repr

/-- The dictionary built by `ProgressTracker.to_stats_message`. -/
structure StatsMessage where
  stats : StatsDict
  total_processed : Nat
  success_rate : ℚ
deriving DecidableEq, Repr

/-- `ProgressTracker.to_progress_message`. -/
def ProgressTracker.to_progress_message (t : ProgressTracker) (now : ℚ) :
    ProgressMessage :=
  let e := t.get_eta now
  { current := t.current_file_index
    total := t.total_files
    filename := t.current_filename
    percentage := t.get_progress_percentage
    current_file_percentage := t.get_current_file_percentage
    elapsed := t.get_elapsed_formatted now
    eta := e.2
    eta_seconds := e.1 }

/-- `ProgressTracker.to_stats_message`. -/
def ProgressTracker.to_stats_message (t : ProgressTracker) : StatsMessage :=
  { stats := t.stats.to_dict
    total_processed := t.stats.total_processed
    success_rate := t.stats.success_rate }

/-- `ProgressTracker.reset` (counters, pointers and timestamps reinitialized). -/
def ProgressTracker.reset (t : ProgressTracker) (now : ℚ) : ProgressTracker :=
  { t with current_file_index := 0, current_filename := "", start_time := now,
           stats := ConversionStats.init, file_start_times := [],
           file_end_times := [] }

/-- Applying a sequence of recorded outcomes (`update_stats` calls) in order. -/
def applyOutcomes (t : ProgressTracker) (kinds : List String) : ProgressTracker :=
  kinds.foldl ProgressTracker.update_stats t

/-- `b` is `a` with exactly one of the four counters incremented by one. -/
def oneIncrement (a b : ConversionStats) : Prop :=
  b = { a with success := a.success + 1 } ∨
  b = { a with partialCount := a.partialCount + 1 } ∨
  b = { a with failed := a.failed + 1 } ∨
  b = { a with skipped := a.skipped + 1 }

/-- One entry of `DocumentConversionStats.errors` (`{'file':…, 'status':…, …}`).
The skip reason carries the raw byte sizes; the Python source renders them as
megabytes with one decimal inside the reason string. -/
inductive ErrorEntry where
  | partialEntry (file : String) (errors : List String)
  | failedEntry (file : String) (error : String)
  | skippedEntry (file : String) (reason : String)
deriving DecidableEq, Repr

/-- `convert_to_markdown.DocumentConversionStats` (the `start_time` field,
used only for console printing, is not modelled). -/
structure DocumentConversionStats where
  total_files : Nat
  successful : Nat
  partial_success : Nat
  failed : Nat
  skipped : Nat
  errors : List ErrorEntry
deriving DecidableEq, Repr

/-- A fresh `DocumentConversionStats()`. -/
def DocumentConversionStats.init : DocumentConversionStats := ⟨0, 0, 0, 0, 0, []⟩

/-- `DocumentConversionStats.add_success`. -/
def DocumentConversionStats.add_success (s : DocumentConversionStats) :
    DocumentConversionStats :=
  { s with successful := s.successful + 1 }

/-- `DocumentConversionStats.add_partial_success`. -/
def DocumentConversionStats.add_partial_success (s : DocumentConversionStats)
    (filename : String) (errors : List String) : DocumentConversionStats :=
  { s with partial_success := s.partial_success + 1,
           errors := s.errors ++ [ErrorEntry.partialEntry filename errors] }

/-- `DocumentConversionStats.add_failure`. -/
def DocumentConversionStats.add_failure (s : DocumentConversionStats)
    (filename : String) (error : String) : DocumentConversionStats :=
  { s with failed := s.failed + 1,
           errors := s.errors ++ [ErrorEntry.failedEntry filename error] }

/-- `DocumentConversionStats.add_skipped`. -/
def DocumentConversionStats.add_skipped (s : DocumentConversionStats)
    (filename : String) (reason : String) : DocumentConversionStats :=
  { s with skipped := s.skipped + 1,
           errors := s.errors ++ [ErrorEntry.skippedEntry filename reason] }

/-- The candidate output names tried by `generate_unique_output_name`:
`f"{base_name}.md"` first, then `f"{base_name}_{counter}.md"` for
`counter = 1, 2, …`. -/
def candidateName (base : String) (k : Nat) : String :=
  if k = 0 then base ++ ".md" else base ++ "_" ++ Nat.repr k ++ ".md"

/-- The `while output_name in used_names` loop of `generate_unique_output_name`,
trying `candidateName base k, candidateName base (k+1), …`. The fuel argument
only makes the recursion structural; `genLoop_finds` shows that the fuel used
by `generate_unique_output_name` never runs out. -/
def genLoop (base : String) (used : List String) : Nat → Nat → Option String
  | _, 0 => none
  | k, fuel + 1 =>
    if candidateName base k ∈ used then genLoop base used (k + 1) fuel
    else some (candidateName base k)

/-- `convert_to_markdown.generate_unique_output_name(output_dir, original_path,
used_names)`: returns the fresh name and the grown set (modelled as a list;
the `output_dir` argument is unused by the Python body as well). `base` is
`original_path.stem`. The `none` branch of the search is unreachable
(`genLoop_finds`). -/
def generate_unique_output_name (_output_dir : String) (base : String)
    (used : List String) : String × List String :=
  match genLoop base used 0 (used.length + 1) with
  | some name => (name, name :: used)
  | none => ("", used)

/-- A file submitted to the driver: `Path.name`, `Path.stem`, `stat().st_size`. -/
structure FileInfo where
  name : String
  stem : String
  size : Nat
deriving DecidableEq, Repr

/-- `docling ConversionStatus` as observed by the driver's branches. -/
inductive EngineStatus where
  | success
  | partialSuccess
  | failure
deriving DecidableEq, Repr

/-- One item result yielded by the engine stream: its status, the
`error_message` list of `conv_result.errors`, and — when the driver calls
`document.save_as_markdown` — whether that call raises (with the exception
text). -/
structure EngineResult where
  status : EngineStatus
  errors : List String
  saveRaises : Option String
deriving DecidableEq, Repr

/-- One step of lazily consuming `converter.convert_all(...)`: either the next
per-item result, or the iterator raising outside its result protocol. -/
inductive EngineStep where
  | yield (r : EngineResult)
  | crash (e : String)
deriving DecidableEq, Repr

/-- Messages put on the GUI queue: the `progress_callback` messages emitted by
`convert_documents` plus the worker's own messages, tagged by their `'type'`
field. -/
inductive QMsg where
  | log (emoji : String) (message : String) (level : String)
  | progress (m : ProgressMessage)
  | stats (m : StatsMessage)
  | complete (stats : StatsDict)
  | error (message : String)
deriving DecidableEq, Repr

/-- The `'type'` tag of a queue message. -/
inductive MsgKind where
  | log
  | progress
  | stats
  | complete
  | error
deriving DecidableEq, Repr

/-- Extract the `'type'` tag. -/
def QMsg.kind : QMsg → MsgKind
  | .log _ _ _ => .log
  | .progress _ => .progress
  | .stats _ => .stats
  | .complete _ => .complete
  | .error _ => .error

/-- A terminal queue message (`complete` or `error`). -/
def isTerminal (m : QMsg) : Bool :=
  match m with
  | .complete _ => true
  | .error _ => true
  | _ => false

/-- Number of terminal messages in a queue trace. -/
def countTerminal (l : List QMsg) : Nat := (l.filter isTerminal).length

/-- The whole input of one run of `convert_documents` as called by the GUI
worker (`progress_callback` present): the scanned files, the configuration
fields the driver reads, the engine's (lazy) result stream, the value
`stop_check()` returns when read at iteration `idx`, the value `time.time()`
returns at its `k`-th call, and the `stats` object passed in. -/
structure ConvertInput where
  files : List FileInfo
  outputDir : String
  maxFileSize : Nat
  continueOnError : Bool
  steps : List EngineStep
  stopCheck : Nat → Bool
  clock : Nat → ℚ
  stats0 : DocumentConversionStats

/-- The size pre-filter predicate of `convert_documents`
(`MAX_FILE_SIZE > 0 and file_size > MAX_FILE_SIZE`). -/
def oversize (maxFileSize : Nat) (f : FileInfo) : Bool :=
  decide (0 < maxFileSize ∧ maxFileSize < f.size)

/-- The skip reason recorded for an oversize file (the Python string formats
both byte counts as megabytes with one decimal digit). -/
def skipReason (size maxFileSize : Nat) : String :=
  "Размер файла (" ++ Nat.repr size ++ " B) превышает лимит (" ++
    Nat.repr maxFileSize ++ " B)"

/-- The pre-filter loop of `convert_documents` (lines 397–410): oversize files
are recorded via `stats.add_skipped`, the rest are collected in order into
`files_to_convert`. -/
def prefilter (cfg : ConvertInput) : DocumentConversionStats × List FileInfo :=
  cfg.files.foldl
    (fun acc f =>
      if oversize cfg.maxFileSize f then
        (acc.1.add_skipped f.name (skipReason f.size cfg.maxFileSize), acc.2)
      else (acc.1, acc.2 ++ [f]))
    (cfg.stats0, [])

/-- `files_to_convert`: the files surviving the size pre-filter. -/
def files_to_convert (cfg : ConvertInput) : List FileInfo :=
  cfg.files.filter (fun f => !oversize cfg.maxFileSize f)

/-- The files removed by the size pre-filter. -/
def files_skipped (cfg : ConvertInput) : List FileInfo :=
  cfg.files.filter (oversize cfg.maxFileSize)

/-- The mutable state threaded through the main loop of `convert_documents`:
the batch stats object, the GUI tracker, the `used_names` set, and the number
of `time.time()` calls made so far. -/
structure ConvState where
  stats : DocumentConversionStats
  tracker : ProgressTracker
  usedNames : List String
  tick : Nat
deriving DecidableEq, Repr

/-- Result of processing one item: the new state and the `progress_callback`
messages emitted for the item, in order. -/
structure ItemOut where
  st : ConvState
  emitted : List QMsg
deriving DecidableEq, Repr

/-- The common tail of every outcome branch (`# Update tracker for GUI`):
`tracker.update_stats(kind)`, `tracker.end_file(idx)`, then emit the stats
message and a progress message. Returns the new tracker, the new time-call
count and the two messages. -/
def trackerFinish (clock : Nat → ℚ) (tr : ProgressTracker) (tick : Nat)
    (kind : String) (idx : Nat) : ProgressTracker × Nat × List QMsg :=
  let tr1 := tr.update_stats kind
  let tr2 := tr1.end_file (clock tick) idx
  let m1 := QMsg.stats tr2.to_stats_message
  let m2 := QMsg.progress (tr2.to_progress_message (clock (tick + 1)))
  (tr2, tick + 2, [m1, m2])

/-- The body of one iteration of the result loop of `convert_documents`
(lines 464–608), for item `idx` (1-based) with engine result `r`:
`tracker.start_file` + progress message, then the status branch (generating an
output name and saving for success/partial success, converting a save failure
into a `failed` outcome), updating the batch stats and the tracker, and
emitting the outcome log message(s), a stats message and a progress message. -/
def processItem (clock : Nat → ℚ) (outputDir : String) (st : ConvState)
    (idx : Nat) (f : FileInfo) (r : EngineResult) : ItemOut :=
  let tr0 := st.tracker.start_file (clock st.tick) f.name idx
  let p0 := QMsg.progress (tr0.to_progress_message (clock (st.tick + 1)))
  let tick0 := st.tick + 2
  match r.status with
  | .success =>
    let gn := generate_unique_output_name outputDir f.stem st.usedNames
    match r.saveRaises with
    | none =>
      let mLog := QMsg.log "✓" ("Успешно сохранено: " ++ gn.1) "INFO"
      let stats1 := st.stats.add_success
      let fin := trackerFinish clock tr0 tick0 "success" idx
      ⟨⟨stats1, fin.1, gn.2, fin.2.1⟩, [p0, mLog] ++ fin.2.2⟩
    | some e =>
      let mLog := QMsg.log "✗" ("Ошибка сохранения: " ++ f.name ++ " — " ++ e) "ERROR"
      let stats1 := st.stats.add_failure f.name ("Ошибка сохранения: " ++ e)
      let fin := trackerFinish clock tr0 tick0 "failed" idx
      ⟨⟨stats1, fin.1, gn.2, fin.2.1⟩, [p0, mLog] ++ fin.2.2⟩
  | .partialSuccess =>
    let gn := generate_unique_output_name outputDir f.stem st.usedNames
    match r.saveRaises with
    | none =>
      let mLog := QMsg.log "⚠" ("Частично успешно: " ++ gn.1) "WARNING"
      let errLogs := r.errors.map (fun e => QMsg.log "⚠" ("  - " ++ e) "WARNING")
      let stats1 := st.stats.add_partial_success f.name r.errors
      let fin := trackerFinish clock tr0 tick0 "partial" idx
      ⟨⟨stats1, fin.1, gn.2, fin.2.1⟩, [p0, mLog] ++ errLogs ++ fin.2.2⟩
    | some e =>
      let mLog := QMsg.log "✗" ("Ошибка сохранения: " ++ f.name ++ " — " ++ e) "ERROR"
      let stats1 := st.stats.add_failure f.name ("Ошибка сохранения: " ++ e)
      let fin := trackerFinish clock tr0 tick0 "failed" idx
      ⟨⟨stats1, fin.1, gn.2, fin.2.1⟩, [p0, mLog] ++ fin.2.2⟩
  | .failure =>
    let errMsg :=
      if r.errors.isEmpty then "Неизвестная ошибка"
      else String.intercalate "; " r.errors
    let mLog := QMsg.log "✗" ("Ошибка конвертации " ++ f.name ++ ": " ++ errMsg) "ERROR"
    let stats1 := st.stats.add_failure f.name errMsg
    let fin := trackerFinish clock tr0 tick0 "failed" idx
    ⟨⟨stats1, fin.1, st.usedNames, fin.2.1⟩, [p0, mLog] ++ fin.2.2⟩

/-- Result of the main loop: final state, the per-item emitted message blocks
in item order, and the exception (if any) escaping the `for` loop. -/
structure LoopOut where
  st : ConvState
  blocks : List (List QMsg)
  exc : Option String
deriving DecidableEq, Repr

/-- The `for idx, conv_result in enumerate(conv_results, 1)` loop of
`convert_documents`: the iterator is advanced first (a crash there escapes the
loop), then `stop_check()` is read at the top of the body (a `true` value
breaks out), then the item `files_to_convert[idx-1]` is processed (a missing
index raises `IndexError`, escaping the loop). -/
def convLoop (clock : Nat → ℚ) (stop : Nat → Bool) (outputDir : String)
    (survivors : List FileInfo) :
    ConvState → Nat → List EngineStep → LoopOut
  | st, _, [] => ⟨st, [], none⟩
  | st, idx, step :: rest =>
    match step with
    | .crash e => ⟨st, [], some e⟩
    | .yield r =>
      if stop idx then ⟨st, [], none⟩
      else
        match survivors.get? (idx - 1) with
        | none => ⟨st, [], some "list index out of range"⟩
        | some f =>
          let out := processItem clock outputDir st idx f r
          let res := convLoop clock stop outputDir survivors out.st (idx + 1) rest
          ⟨res.st, out.emitted :: res.blocks, res.exc⟩

/-- The observable outcome of one `convert_documents` call: the final batch
stats, the tracker (when one was created), the final `used_names`, the
callback messages emitted before the loop, the per-item message blocks, and
the exception escaping the call (re-raised only when `CONTINUE_ON_ERROR` is
off). -/
structure ConvertOutput where
  stats : DocumentConversionStats
  tracker? : Option ProgressTracker
  usedNames : List String
  leading : List QMsg
  blocks : List (List QMsg)
  exc : Option String
deriving DecidableEq, Repr

/-- All `progress_callback` messages of the run, in emission order. -/
def ConvertOutput.trace (o : ConvertOutput) : List QMsg :=
  o.leading ++ o.blocks.flatten

/-- `convert_to_markdown.convert_documents`, specialized to a present
`progress_callback` (the GUI worker's call). Pre-filters by size, sets
`stats.total_files` to the number of surviving files, returns early when
nothing survives, otherwise emits the start log, creates the tracker, emits
the initial progress message for the first file, and runs the result loop;
an exception escaping the loop is re-raised only when `CONTINUE_ON_ERROR`
is disabled. -/
def convert_documents (cfg : ConvertInput) : ConvertOutput :=
  let pre := prefilter cfg
  let survivors := pre.2
  let stats2 : DocumentConversionStats := { pre.1 with total_files := survivors.length }
  match survivors with
  | [] => ⟨stats2, none, [], [], [], none⟩
  | f0 :: _ =>
    let startLog := QMsg.log "ℹ"
      ("Начало конвертации " ++ Nat.repr survivors.length ++ " файлов...") "INFO"
    let tr0 := ProgressTracker.init (cfg.clock 0) survivors.length
    let tr1 := tr0.start_file (cfg.clock 1) f0.name 1
    let p0 := QMsg.progress (tr1.to_progress_message (cfg.clock 2))
    let st0 : ConvState := ⟨stats2, tr1, [], 3⟩
    let res := convLoop cfg.clock cfg.stopCheck cfg.outputDir survivors st0 1 cfg.steps
    match res.exc with
    | none =>
      ⟨res.st.stats, some res.st.tracker, res.st.usedNames,
        [startLog, p0], res.blocks, none⟩
    | some e =>
      if cfg.continueOnError then
        ⟨res.st.stats, some res.st.tracker, res.st.usedNames,
          [startLog, p0], res.blocks, none⟩
      else
        ⟨res.st.stats, some res.st.tracker, res.st.usedNames,
          [startLog, p0], res.blocks, some e⟩

/-- `ConversionController._conversion_worker`: runs `convert_documents` with a
fresh `DocumentConversionStats` (after the `setup` log message), then appends
exactly one terminal message — `complete` with the final counters when the
call returns, `error` with the exception text when it raises. The
`except Exception` handler makes the list below the worker's entire queue
output. -/
def conversion_worker (cfg : ConvertInput) : List QMsg :=
  let setupMsg := QMsg.log "ℹ" "Setting up document converter..." "INFO"
  let out := convert_documents { cfg with stats0 := DocumentConversionStats.init }
  match out.exc with
  | none =>
    setupMsg :: (out.trace ++
      [QMsg.complete ⟨out.stats.successful, out.stats.partial_success,
        out.stats.failed, out.stats.skipped⟩])
  | some e => setupMsg :: (out.trace ++ [QMsg.error e])

/-- The number of extra per-error log messages an item's outcome emits (only a
partial success whose save succeeds logs each engine error message). -/
def extraLogCount (r : EngineResult) : Nat :=
  match r.status, r.saveRaises with
  | .partialSuccess, none => r.errors.length
  | _, _ => 0

/-- The `'type'` pattern of the messages emitted for one processed item:
a progress message, the outcome log message, `x` extra log messages, a stats
message, a progress message. -/
def lpsShape (x : Nat) : List MsgKind :=
  [MsgKind.progress, MsgKind.log] ++ List.replicate x MsgKind.log ++
    [MsgKind.stats, MsgKind.progress]

/-- Boolean test that `pat` occurs as a (not necessarily contiguous)
subsequence of `l`, in order. -/
def isSubseqOf : List MsgKind → List MsgKind → Bool
  | [], _ => true
  | _ :: _, [] => false
  | a :: as, b :: bs => if a = b then isSubseqOf as bs else isSubseqOf (a :: as) bs

/-- A concrete tracker state with one recorded success out of one file
(used as a witness input below). -/
def sampleTracker : ProgressTracker := ⟨1, 0, "", 0, ⟨1, 0, 0, 0⟩, [], []⟩

/-- Read a decimal digit list back into a number (left fold), starting from
accumulator `a`. -/
def parseFrom (a : Nat) (l : List Char) : Nat :=
  l.foldl (fun acc c => 10 * acc + (c.toNat - 48)) a

/-- Abbreviation: the loop state at the start of the result loop (batch stats
with `total_files` set, tracker created and started on the first file). -/
def stZero (cfg : ConvertInput) (survivors : List FileInfo) (f0 : FileInfo) : ConvState :=
  ⟨{ (prefilter cfg).1 with total_files := survivors.length },
   (ProgressTracker.init (cfg.clock 0) survivors.length).start_file (cfg.clock 1) f0.name 1,
   [], 3⟩

/-- Abbreviation: the result of the whole main loop. -/
def loopRes (cfg : ConvertInput) (f0 : FileInfo) (rest : List FileInfo) : LoopOut :=
  convLoop cfg.clock cfg.stopCheck cfg.outputDir (f0 :: rest)
    (stZero cfg (f0 :: rest) f0) 1 cfg.steps

/-- Abbreviation: the two callback messages emitted before the loop. -/
def leadMsgs (cfg : ConvertInput) (f0 : FileInfo) (rest : List FileInfo) : List QMsg :=
  [QMsg.log "ℹ"
    ("Начало конвертации " ++ Nat.repr (f0 :: rest).length ++ " файлов...") "INFO",
   QMsg.progress
    ((stZero cfg (f0 :: rest) f0).tracker.to_progress_message (cfg.clock 2))]

/-- One in-limit file whose conversion succeeds. -/
def cfgA : ConvertInput :=
  ⟨[⟨"a.pdf", "a", 10⟩], "out", 0, true,
   [EngineStep.yield ⟨EngineStatus.success, [], none⟩],
   fun _ => false, fun _ => 0, DocumentConversionStats.init⟩

/-- One oversize file (pre-filtered) and one small file that succeeds, with
`MAX_FILE_SIZE = 10`. -/
def cfgB : ConvertInput :=
  ⟨[⟨"big.pdf", "big", 100⟩, ⟨"small.pdf", "small", 5⟩], "out", 10, true,
   [EngineStep.yield ⟨EngineStatus.success, [], none⟩],
   fun _ => false, fun _ => 0, DocumentConversionStats.init⟩

/-- Two in-limit files, an engine stream of two successes, and a stop flag
that reads `true` from iteration 2 on (used as a witness input for the stop
claim). -/
def cfgC : ConvertInput :=
  ⟨[⟨"a.pdf", "a", 10⟩, ⟨"b.pdf", "b", 20⟩], "out", 0, true,
   [EngineStep.yield ⟨EngineStatus.success, [], none⟩,
    EngineStep.yield ⟨EngineStatus.success, [], none⟩],
   fun i => decide (2 ≤ i), fun _ => 0, DocumentConversionStats.init⟩

/- ------------------------------------------------------------------ -/
/- Theorems.                                                           -/
/- ------------------------------------------------------------------ -/

theorem update_stats_frame (t : ProgressTracker) (s : String) :
    (t.update_stats s).total_files = t.total_files ∧
    (t.update_stats s).current_file_index = t.current_file_index ∧
    (t.update_stats s).current_filename = t.current_filename ∧
    (t.update_stats s).start_time = t.start_time ∧
    (t.update_stats s).file_start_times = t.file_start_times ∧
    (t.update_stats s).file_end_times = t.file_end_times := by
  unfold ProgressTracker.update_stats
  dsimp only
  split_ifs <;> exact ⟨rfl, rfl, rfl, rfl, rfl, rfl⟩

theorem update_stats_recognized (t : ProgressTracker) (s : String)
    (h : recognizedKind s = true) :
    oneIncrement t.stats (t.update_stats s).stats := by
  unfold recognizedKind at h
  rw [decide_eq_true_eq] at h
  unfold ProgressTracker.update_stats oneIncrement
  dsimp only
  rcases h with h | h | h | h | h | h | h <;>
    simp [h]

theorem update_stats_unrecognized (t : ProgressTracker) (s : String)
    (h : recognizedKind s = false) :
    (t.update_stats s).stats = t.stats := by
  unfold recognizedKind at h
  rw [decide_eq_false_iff_not] at h
  push_neg at h
  unfold ProgressTracker.update_stats
  dsimp only
  split_ifs <;> first | rfl | (exfalso; tauto)

theorem update_stats_processed_le (t : ProgressTracker) (s : String) :
    t.stats.total_processed ≤ (t.update_stats s).stats.total_processed ∧
    (t.update_stats s).stats.total_processed ≤ t.stats.total_processed + 1 := by
  unfold ProgressTracker.update_stats ConversionStats.total_processed
  dsimp only
  split_ifs <;> simp <;> omega

theorem applyOutcomes_total_files (t : ProgressTracker) (ks : List String) :
    (applyOutcomes t ks).total_files = t.total_files := by
  induction ks generalizing t with
  | nil => rfl
  | cons k ks ih =>
    show (applyOutcomes (t.update_stats k) ks).total_files = t.total_files
    rw [ih, (update_stats_frame t k).1]

theorem applyOutcomes_processed_le (t : ProgressTracker) (ks : List String) :
    (applyOutcomes t ks).stats.total_processed ≤
      t.stats.total_processed + ks.length := by
  induction ks generalizing t with
  | nil => exact Nat.le_refl _
  | cons k ks ih =>
    have h1 := ih (t.update_stats k)
    have h2 := (update_stats_processed_le t k).2
    calc (applyOutcomes (t.update_stats k) ks).stats.total_processed
        ≤ (t.update_stats k).stats.total_processed + ks.length := h1
      _ ≤ t.stats.total_processed + 1 + ks.length := by omega
      _ = t.stats.total_processed + (k :: ks).length := by simp; omega

theorem formatTime_colon (s : ℚ) : ':' ∈ (formatTime s).data := by
  unfold formatTime
  simp only [String.data_append]
  refine List.mem_append.2 (Or.inl ?_)
  refine List.mem_append.2 (Or.inl ?_)
  refine List.mem_append.2 (Or.inl ?_)
  refine List.mem_append.2 (Or.inr ?_)
  decide

theorem formatTime_ne_sentinel (s : ℚ) : formatTime s ≠ "Расчет..." := by
  intro h
  have hc := formatTime_colon s
  rw [h] at hc
  exact absurd hc (by decide)

/-- Claim C4 (amended): for every sequence of recorded outcomes,
`total_processed()` equals the sum of the four counters; the sum grows by at
most one per recorded outcome, so starting from fresh counters it never
exceeds the number of recorded outcomes — hence it stays within `total_files`
whenever at most `total_files` outcomes are recorded (which is how the
conversion loop uses the tracker). The original claim, that the sum never
exceeds `total_files` for *every* sequence, is refuted by
`claim_C4_counterexample`. -/
theorem claim_C4_total_processed (t : ProgressTracker) (ks : List String) :
    (applyOutcomes t ks).stats.total_processed =
      (applyOutcomes t ks).stats.success + (applyOutcomes t ks).stats.partialCount +
        (applyOutcomes t ks).stats.failed + (applyOutcomes t ks).stats.skipped ∧
    (applyOutcomes t ks).total_files = t.total_files ∧
    (applyOutcomes t ks).stats.total_processed ≤ t.stats.total_processed + ks.length ∧
    (t.stats.total_processed = 0 → ks.length ≤ t.total_files →
      (applyOutcomes t ks).stats.total_processed ≤ (applyOutcomes t ks).total_files) := by
  refine ⟨rfl, applyOutcomes_total_files t ks, applyOutcomes_processed_le t ks, ?_⟩
  intro h0 hle
  have h1 := applyOutcomes_processed_le t ks
  rw [applyOutcomes_total_files t ks]
  omega

/-- Claim C4, counterexample to the claim as stated: a single `"success"`
outcome recorded on a tracker created with `total_files = 0` makes
`total_processed() = 1 > 0 = total_files`. -/
theorem claim_C4_counterexample :
    ¬ ((applyOutcomes (ProgressTracker.init 0 0) ["success"]).stats.total_processed ≤
        (applyOutcomes (ProgressTracker.init 0 0) ["success"]).total_files) := by
  decide

/-- Witness for `claim_C4_total_processed` at a concrete input. -/
theorem claim_C4_witness :
    ((ProgressTracker.init 0 2).stats.total_processed = 0 ∧
      (["success"] : List String).length ≤ (ProgressTracker.init 0 2).total_files) ∧
    (applyOutcomes (ProgressTracker.init 0 2) ["success"]).stats.total_processed ≤
      (applyOutcomes (ProgressTracker.init 0 2) ["success"]).total_files :=
  ⟨⟨by decide, by decide⟩,
    (claim_C4_total_processed (ProgressTracker.init 0 2) ["success"]).2.2.2
      (by decide) (by decide)⟩

/-- Claim C5: `get_progress_percentage()` returns
`floor(100 * total_processed / total_files)` and returns `0` when
`total_files = 0` (Python's `int()` truncation coincides with `floor` here
because the ratio is non-negative). -/
theorem claim_C5_progress_percentage (t : ProgressTracker) :
    t.get_progress_percentage =
      (if t.total_files = 0 then 0
       else ((100 * (t.stats.total_processed : ℚ)) / (t.total_files : ℚ)).floor) ∧
    (t.total_files = 0 → t.get_progress_percentage = 0) := by
  constructor
  · by_cases h : t.total_files = 0
    · simp [ProgressTracker.get_progress_percentage, h]
    · have harg : ((t.stats.total_processed : ℚ) / (t.total_files : ℚ)) * 100 =
          (100 * (t.stats.total_processed : ℚ)) / (t.total_files : ℚ) := by
        rw [div_mul_eq_mul_div, mul_comm]
      have hpos : (0 : ℚ) ≤ ((t.stats.total_processed : ℚ) / (t.total_files : ℚ)) * 100 := by
        have := div_nonneg (Nat.cast_nonneg (α := ℚ) t.stats.total_processed)
          (Nat.cast_nonneg (α := ℚ) t.total_files)
        nlinarith
      simp only [ProgressTracker.get_progress_percentage, h, if_false, pyInt,
        if_pos hpos, harg]
      rw [if_pos (harg ▸ hpos)]
  · intro h
    simp [ProgressTracker.get_progress_percentage, h]

/-- Witness for `claim_C5_progress_percentage` at a concrete input. -/
theorem claim_C5_witness :
    (ProgressTracker.init 0 0).total_files = 0 ∧
    (ProgressTracker.init 0 0).get_progress_percentage = 0 :=
  ⟨rfl, (claim_C5_progress_percentage (ProgressTracker.init 0 0)).2 rfl⟩

/-- Claim C6 (amended): `get_eta()` returns the `"Расчет..."` sentinel with
`0` seconds iff `total_processed = 0`; it returns `("00:00:00", 0)` whenever
`total_processed = total_files` *and* `total_processed ≠ 0`; otherwise (some
progress, some files remaining) it returns
`remaining_files * (elapsed / total_processed)` seconds, formatted `HH:MM:SS`.
The original claim's unconditional second part fails at
`total_files = total_processed = 0` (`claim_C6_counterexample`). -/
theorem claim_C6_eta (t : ProgressTracker) (now : ℚ) :
    (t.get_eta now = ((0 : ℚ), "Расчет...") ↔ t.stats.total_processed = 0) ∧
    (t.stats.total_processed ≠ 0 → t.stats.total_processed = t.total_files →
      t.get_eta now = ((0 : ℚ), "00:00:00")) ∧
    (t.stats.total_processed ≠ 0 → t.stats.total_processed < t.total_files →
      t.get_eta now =
        ((((t.total_files : Int) - (t.stats.total_processed : Int) : Int) : ℚ) *
            ((now - t.start_time) / (t.stats.total_processed : ℚ)),
          formatTime ((((t.total_files : Int) - (t.stats.total_processed : Int) : Int) : ℚ) *
            ((now - t.start_time) / (t.stats.total_processed : ℚ))))) := by
  refine ⟨⟨?_, ?_⟩, ?_, ?_⟩
  · intro h
    by_contra hp
    unfold ProgressTracker.get_eta at h
    rw [if_neg hp] at h
    dsimp only at h
    by_cases hr : (t.total_files : Int) - (t.stats.total_processed : Int) ≤ 0
    · rw [if_pos hr] at h
      have := congrArg Prod.snd h
      exact absurd this (by decide)
    · rw [if_neg hr] at h
      have := congrArg Prod.snd h
      exact formatTime_ne_sentinel _ this
  · intro h
    unfold ProgressTracker.get_eta
    rw [if_pos h]
  · intro hp he
    unfold ProgressTracker.get_eta
    rw [if_neg hp]
    dsimp only
    rw [if_pos (by omega)]
  · intro hp hlt
    unfold ProgressTracker.get_eta
    rw [if_neg hp]
    dsimp only
    rw [if_neg (by omega)]
    unfold ProgressTracker.get_average_time_per_file ProgressTracker.get_elapsed_time
    rw [if_neg hp]

/-- Claim C6, counterexample to the claim as stated: on a tracker with
`total_files = 0` (so `total_processed = total_files = 0`), `get_eta()`
returns the calculating sentinel, not `"00:00:00"` as the claim's second part
requires. -/
theorem claim_C6_counterexample :
    (ProgressTracker.init 0 0).stats.total_processed = (ProgressTracker.init 0 0).total_files ∧
    ((ProgressTracker.init 0 0).get_eta 0).2 = "Расчет..." ∧
    ((ProgressTracker.init 0 0).get_eta 0).2 ≠ "00:00:00" := by
  refine ⟨rfl, rfl, by decide⟩

/-- Witness for `claim_C6_eta` at a concrete input. -/
theorem claim_C6_witness :
    (sampleTracker.stats.total_processed ≠ 0 ∧
      sampleTracker.stats.total_processed = sampleTracker.total_files) ∧
    sampleTracker.get_eta 0 = ((0 : ℚ), "00:00:00") :=
  ⟨⟨by decide, by decide⟩, (claim_C6_eta sampleTracker 0).2.1 (by decide) (by decide)⟩

/-- Claim C8: `update_stats(status)` increments exactly one of the four
counters when the (lowercased) status is recognized, leaves all counters
unchanged when it is not, and in every case leaves every other tracker field
(`total_files`, current index, filename, start time, both per-file time maps)
unchanged; the untouched counters are part of `oneIncrement`. -/
theorem claim_C8_update_stats (t : ProgressTracker) (s : String) :
    ((t.update_stats s).total_files = t.total_files ∧
     (t.update_stats s).current_file_index = t.current_file_index ∧
     (t.update_stats s).current_filename = t.current_filename ∧
     (t.update_stats s).start_time = t.start_time ∧
     (t.update_stats s).file_start_times = t.file_start_times ∧
     (t.update_stats s).file_end_times = t.file_end_times) ∧
    (recognizedKind s = true → oneIncrement t.stats (t.update_stats s).stats) ∧
    (recognizedKind s = false → (t.update_stats s).stats = t.stats) :=
  ⟨update_stats_frame t s, update_stats_recognized t s, update_stats_unrecognized t s⟩

/-- Witness for `claim_C8_update_stats` at concrete inputs: a recognized kind
(`"Partial_Success"`, lowercasing to `partial_success`) and an unrecognized
one. -/
theorem claim_C8_witness :
    (recognizedKind "Partial_Success" = true ∧
      oneIncrement sampleTracker.stats (sampleTracker.update_stats "Partial_Success").stats) ∧
    (recognizedKind "bogus" = false ∧
      (sampleTracker.update_stats "bogus").stats = sampleTracker.stats) :=
  ⟨⟨by decide, (claim_C8_update_stats sampleTracker "Partial_Success").2.1 (by decide)⟩,
    ⟨by decide, (claim_C8_update_stats sampleTracker "bogus").2.2 (by decide)⟩⟩

/-- Claim C10: `get_current_file_percentage()` always returns `None` (despite
its declared `int` return type), and therefore the
`current_file_percentage` field of every message built by
`to_progress_message` is `None`. -/
theorem claim_C10_current_file_percentage (t : ProgressTracker) (now : ℚ) :
    t.get_current_file_percentage = none ∧
    (t.to_progress_message now).current_file_percentage = none :=
  ⟨rfl, rfl⟩

theorem parseFrom_cons (a : Nat) (c : Char) (l : List Char) :
    parseFrom a (c :: l) = parseFrom (10 * a + (c.toNat - 48)) l := rfl

theorem digitChar_toNat (d : Nat) (h : d < 10) : (Nat.digitChar d).toNat - 48 = d := by
  revert h; revert d; decide

theorem toDigitsCore_parse : ∀ (f : Nat), ∀ (n : Nat) (ds : List Char), n < f →
    parseFrom 0 (Nat.toDigitsCore 10 f n ds) = parseFrom n ds := by
  intro f
  induction f with
  | zero => intro n ds h; omega
  | succ f ih =>
    intro n ds h
    show parseFrom 0 (if n / 10 = 0 then (Nat.digitChar (n % 10)) :: ds
        else Nat.toDigitsCore 10 f (n / 10) ((Nat.digitChar (n % 10)) :: ds)) = parseFrom n ds
    by_cases h0 : n / 10 = 0
    · simp only [h0, if_true, parseFrom_cons]
      rw [digitChar_toNat _ (Nat.mod_lt _ (by norm_num))]
      have hn : n % 10 = n := Nat.mod_eq_of_lt (by omega)
      simp [hn]
    · simp only [h0, if_false]
      rw [ih (n / 10) _ (by omega)]
      rw [parseFrom_cons, digitChar_toNat _ (Nat.mod_lt _ (by norm_num))]
      have hdm : 10 * (n / 10) + n % 10 = n := Nat.div_add_mod n 10
      rw [hdm]

theorem reprParse_repr (n : Nat) : parseFrom 0 (Nat.repr n).data = n := by
  have h := toDigitsCore_parse (n + 1) n [] (Nat.lt_succ_self n)
  simpa [Nat.repr, Nat.toDigits, parseFrom] using h

theorem natRepr_injective : Function.Injective Nat.repr := by
  intro a b h
  have ha := reprParse_repr a
  rw [h, reprParse_repr b] at ha
  exact ha.symm

theorem toDigitsCore_length_ge : ∀ (f : Nat), ∀ (n : Nat) (ds : List Char),
    ds.length ≤ (Nat.toDigitsCore 10 f n ds).length := by
  intro f
  induction f with
  | zero => intro n ds; exact Nat.le_refl _
  | succ f ih =>
    intro n ds
    show ds.length ≤ (if n / 10 = 0 then (Nat.digitChar (n % 10)) :: ds
        else Nat.toDigitsCore 10 f (n / 10) ((Nat.digitChar (n % 10)) :: ds)).length
    by_cases h0 : n / 10 = 0
    · simp [h0]
    · simp only [h0, if_false]
      have := ih (n / 10) ((Nat.digitChar (n % 10)) :: ds)
      simp only [List.length_cons] at this
      omega

theorem repr_length_pos (n : Nat) : 1 ≤ (Nat.repr n).length := by
  show 1 ≤ (Nat.toDigitsCore 10 (n + 1) n []).length
  have h := toDigitsCore_length_ge n (n / 10) [Nat.digitChar (n % 10)]
  show 1 ≤ (if n / 10 = 0 then (Nat.digitChar (n % 10)) :: ([] : List Char)
      else Nat.toDigitsCore 10 n (n / 10) [Nat.digitChar (n % 10)]).length
  by_cases h0 : n / 10 = 0
  · simp [h0]
  · simp only [h0, if_false]
    simpa using h

theorem candidateName_zero_length (base : String) :
    (candidateName base 0).length = base.length + 3 := by
  show (base ++ ".md").length = base.length + 3
  rw [String.length_append]
  have h2 : (".md" : String).length = 3 := by decide
  omega

theorem candidateName_succ_length (base : String) (j : Nat) :
    (candidateName base (j + 1)).length =
      base.length + 1 + (Nat.repr (j + 1)).length + 3 := by
  show (base ++ "_" ++ Nat.repr (j + 1) ++ ".md").length =
    base.length + 1 + (Nat.repr (j + 1)).length + 3
  rw [String.length_append, String.length_append, String.length_append]
  have h2 : (".md" : String).length = 3 := by decide
  have h3 : ("_" : String).length = 1 := by decide
  omega

theorem candidateName_injective (base : String) :
    Function.Injective (candidateName base) := by
  intro i j h
  match i, j with
  | 0, 0 => rfl
  | 0, j + 1 =>
    exfalso
    have hl := congrArg String.length h
    rw [candidateName_zero_length, candidateName_succ_length] at hl
    have h1 := repr_length_pos (j + 1)
    omega
  | i + 1, 0 =>
    exfalso
    have hl := congrArg String.length h
    rw [candidateName_zero_length, candidateName_succ_length] at hl
    have h1 := repr_length_pos (i + 1)
    omega
  | i + 1, j + 1 =>
    have hd := congrArg String.data h
    simp only [candidateName, Nat.succ_ne_zero, if_false, String.data_append] at hd
    have h1 := List.append_cancel_right hd
    have h2 := List.append_cancel_left h1
    have ha := reprParse_repr (i + 1)
    have hb := reprParse_repr (j + 1)
    rw [h2] at ha
    rw [hb] at ha
    omega

theorem candidate_free_exists (base : String) (used : List String) :
    ∃ k, k ≤ used.length ∧ candidateName base k ∉ used := by
  by_contra hall
  push_neg at hall
  have hsub : (Finset.range (used.length + 1)).image (candidateName base) ⊆
      used.toFinset := by
    intro s hs
    obtain ⟨k, hk, rfl⟩ := Finset.mem_image.1 hs
    rw [List.mem_toFinset]
    have hk2 := Finset.mem_range.1 hk
    exact hall k (by omega)
  have hcard : ((Finset.range (used.length + 1)).image (candidateName base)).card =
      used.length + 1 := by
    rw [Finset.card_image_of_injOn (Function.Injective.injOn (candidateName_injective base))]
    exact Finset.card_range _
  have hle := Finset.card_le_card hsub
  have := used.toFinset_card_le
  omega

theorem genLoop_finds (base : String) (used : List String) :
    ∀ (fuel k : Nat), (∃ j, k ≤ j ∧ j < k + fuel ∧ candidateName base j ∉ used) →
    ∃ name, genLoop base used k fuel = some name ∧ name ∉ used := by
  intro fuel
  induction fuel with
  | zero => intro k ⟨j, h1, h2, _⟩; omega
  | succ fuel ih =>
    intro k ⟨j, h1, h2, h3⟩
    by_cases hc : candidateName base k ∈ used
    · have hkj : k ≠ j := fun he => h3 (he ▸ hc)
      have hstep : genLoop base used k (fuel + 1) = genLoop base used (k + 1) fuel := by
        simp [genLoop, hc]
      rw [hstep]
      exact ih (k + 1) ⟨j, by omega, by omega, h3⟩
    · refine ⟨candidateName base k, ?_, hc⟩
      simp [genLoop, hc]

theorem generate_unique_output_name_spec (dir base : String) (used : List String) :
    ∃ name, generate_unique_output_name dir base used = (name, name :: used) ∧
      name ∉ used := by
  obtain ⟨k, hk, hfree⟩ := candidate_free_exists base used
  obtain ⟨name, hloop, hfresh⟩ :=
    genLoop_finds base used (used.length + 1) 0 ⟨k, Nat.zero_le _, by omega, hfree⟩
  refine ⟨name, ?_, hfresh⟩
  unfold generate_unique_output_name
  rw [hloop]

theorem update_stats_success_stats (t : ProgressTracker) :
    (t.update_stats "success").stats = { t.stats with success := t.stats.success + 1 } := by
  unfold ProgressTracker.update_stats
  dsimp only
  rw [if_pos (by decide)]

theorem update_stats_partial_stats (t : ProgressTracker) :
    (t.update_stats "partial").stats =
      { t.stats with partialCount := t.stats.partialCount + 1 } := by
  unfold ProgressTracker.update_stats
  dsimp only
  rw [if_neg (by decide), if_pos (by decide)]

theorem update_stats_failed_stats (t : ProgressTracker) :
    (t.update_stats "failed").stats = { t.stats with failed := t.stats.failed + 1 } := by
  unfold ProgressTracker.update_stats
  dsimp only
  rw [if_neg (by decide), if_neg (by decide), if_pos (by decide)]

theorem processItem_kinds (clock : Nat → ℚ) (dir : String) (st : ConvState)
    (idx : Nat) (f : FileInfo) (r : EngineResult) :
    (processItem clock dir st idx f r).emitted.map QMsg.kind =
      lpsShape (extraLogCount r) := by
  unfold processItem extraLogCount lpsShape trackerFinish
  cases r.status <;> cases hs : r.saveRaises <;>
    simp [QMsg.kind, List.map_map, Function.comp_def]

theorem processItem_stats_skipped (clock : Nat → ℚ) (dir : String) (st : ConvState)
    (idx : Nat) (f : FileInfo) (r : EngineResult) :
    (processItem clock dir st idx f r).st.stats.skipped = st.stats.skipped := by
  unfold processItem trackerFinish
  cases r.status <;> cases r.saveRaises <;>
    simp [DocumentConversionStats.add_success, DocumentConversionStats.add_failure,
      DocumentConversionStats.add_partial_success]

theorem processItem_tracker_skipped (clock : Nat → ℚ) (dir : String) (st : ConvState)
    (idx : Nat) (f : FileInfo) (r : EngineResult) :
    (processItem clock dir st idx f r).st.tracker.stats.skipped =
      st.tracker.stats.skipped := by
  unfold processItem trackerFinish
  cases r.status <;> cases r.saveRaises <;>
    simp [ProgressTracker.end_file, ProgressTracker.start_file,
      update_stats_success_stats, update_stats_partial_stats, update_stats_failed_stats]

theorem processItem_tracker_total_files (clock : Nat → ℚ) (dir : String)
    (st : ConvState) (idx : Nat) (f : FileInfo) (r : EngineResult) :
    (processItem clock dir st idx f r).st.tracker.total_files =
      st.tracker.total_files := by
  unfold processItem trackerFinish
  cases r.status <;> cases r.saveRaises <;>
    simp [ProgressTracker.end_file, ProgressTracker.start_file,
      (update_stats_frame _ _).1]

theorem processItem_usedNames_nodup (clock : Nat → ℚ) (dir : String)
    (st : ConvState) (idx : Nat) (f : FileInfo) (r : EngineResult)
    (h : st.usedNames.Nodup) :
    (processItem clock dir st idx f r).st.usedNames.Nodup := by
  unfold processItem trackerFinish
  obtain ⟨name, hgen, hfresh⟩ := generate_unique_output_name_spec dir f.stem st.usedNames
  cases r.status <;> cases r.saveRaises <;>
    simp [hgen, List.nodup_cons, hfresh, h]

theorem convLoop_stats_skipped (clock : Nat → ℚ) (stop : Nat → Bool) (dir : String)
    (sv : List FileInfo) :
    ∀ (steps : List EngineStep) (st : ConvState) (idx : Nat),
    (convLoop clock stop dir sv st idx steps).st.stats.skipped = st.stats.skipped := by
  intro steps
  induction steps with
  | nil => intro st idx; rfl
  | cons s rest ih =>
    intro st idx
    cases s with
    | crash e => rfl
    | yield r =>
      show (if stop idx then (⟨st, [], none⟩ : LoopOut)
          else match sv.get? (idx - 1) with
          | none => ⟨st, [], some "list index out of range"⟩
          | some f =>
            let out := processItem clock dir st idx f r
            let res := convLoop clock stop dir sv out.st (idx + 1) rest
            ⟨res.st, out.emitted :: res.blocks, res.exc⟩).st.stats.skipped = st.stats.skipped
      by_cases hstop : stop idx
      · simp [hstop]
      · simp only [hstop, if_false]
        cases hget : sv.get? (idx - 1) with
        | none => rfl
        | some f =>
          simp [ih, processItem_stats_skipped]

theorem convLoop_tracker_skipped (clock : Nat → ℚ) (stop : Nat → Bool) (dir : String)
    (sv : List FileInfo) :
    ∀ (steps : List EngineStep) (st : ConvState) (idx : Nat),
    (convLoop clock stop dir sv st idx steps).st.tracker.stats.skipped =
      st.tracker.stats.skipped := by
  intro steps
  induction steps with
  | nil => intro st idx; rfl
  | cons s rest ih =>
    intro st idx
    cases s with
    | crash e => rfl
    | yield r =>
      show (if stop idx then (⟨st, [], none⟩ : LoopOut)
          else match sv.get? (idx - 1) with
          | none => ⟨st, [], some "list index out of range"⟩
          | some f =>
            let out := processItem clock dir st idx f r
            let res := convLoop clock stop dir sv out.st (idx + 1) rest
            ⟨res.st, out.emitted :: res.blocks, res.exc⟩).st.tracker.stats.skipped =
        st.tracker.stats.skipped
      by_cases hstop : stop idx
      · simp [hstop]
      · simp only [hstop, if_false]
        cases hget : sv.get? (idx - 1) with
        | none => rfl
        | some f =>
          simp [ih, processItem_tracker_skipped]

theorem convLoop_tracker_total_files (clock : Nat → ℚ) (stop : Nat → Bool)
    (dir : String) (sv : List FileInfo) :
    ∀ (steps : List EngineStep) (st : ConvState) (idx : Nat),
    (convLoop clock stop dir sv st idx steps).st.tracker.total_files =
      st.tracker.total_files := by
  intro steps
  induction steps with
  | nil => intro st idx; rfl
  | cons s rest ih =>
    intro st idx
    cases s with
    | crash e => rfl
    | yield r =>
      show (if stop idx then (⟨st, [], none⟩ : LoopOut)
          else match sv.get? (idx - 1) with
          | none => ⟨st, [], some "list index out of range"⟩
          | some f =>
            let out := processItem clock dir st idx f r
            let res := convLoop clock stop dir sv out.st (idx + 1) rest
            ⟨res.st, out.emitted :: res.blocks, res.exc⟩).st.tracker.total_files =
        st.tracker.total_files
      by_cases hstop : stop idx
      · simp [hstop]
      · simp only [hstop, if_false]
        cases hget : sv.get? (idx - 1) with
        | none => rfl
        | some f =>
          simp [ih, processItem_tracker_total_files]

theorem convLoop_usedNames_nodup (clock : Nat → ℚ) (stop : Nat → Bool) (dir : String)
    (sv : List FileInfo) :
    ∀ (steps : List EngineStep) (st : ConvState) (idx : Nat),
    st.usedNames.Nodup →
    (convLoop clock stop dir sv st idx steps).st.usedNames.Nodup := by
  intro steps
  induction steps with
  | nil => intro st idx h; exact h
  | cons s rest ih =>
    intro st idx h
    cases s with
    | crash e => exact h
    | yield r =>
      show (if stop idx then (⟨st, [], none⟩ : LoopOut)
          else match sv.get? (idx - 1) with
          | none => ⟨st, [], some "list index out of range"⟩
          | some f =>
            let out := processItem clock dir st idx f r
            let res := convLoop clock stop dir sv out.st (idx + 1) rest
            ⟨res.st, out.emitted :: res.blocks, res.exc⟩).st.usedNames.Nodup
      by_cases hstop : stop idx
      · simp [hstop, h]
      · simp only [hstop, if_false]
        cases hget : sv.get? (idx - 1) with
        | none => exact h
        | some f =>
          simp only [Bool.false_eq_true, if_false]
          exact ih _ _ (processItem_usedNames_nodup clock dir st idx f r h)

theorem convLoop_block_kinds (clock : Nat → ℚ) (stop : Nat → Bool) (dir : String)
    (sv : List FileInfo) :
    ∀ (steps : List EngineStep) (st : ConvState) (idx : Nat),
    ∃ xs : List Nat,
      (convLoop clock stop dir sv st idx steps).blocks.map (fun b => b.map QMsg.kind) =
        xs.map lpsShape := by
  intro steps
  induction steps with
  | nil => intro st idx; exact ⟨[], rfl⟩
  | cons s rest ih =>
    intro st idx
    cases s with
    | crash e => exact ⟨[], rfl⟩
    | yield r =>
      simp only [convLoop]
      by_cases hstop : stop idx
      · exact ⟨[], by simp [hstop]⟩
      · simp only [hstop, if_false]
        cases hget : sv.get? (idx - 1) with
        | none => exact ⟨[], rfl⟩
        | some f =>
          obtain ⟨xs, hxs⟩ := ih (processItem clock dir st idx f r).st (idx + 1)
          refine ⟨extraLogCount r :: xs, ?_⟩
          simp [hxs, processItem_kinds]

theorem prefilter_spec (cfg : ConvertInput) :
    (prefilter cfg).1.skipped = cfg.stats0.skipped + (files_skipped cfg).length ∧
    (prefilter cfg).2 = files_to_convert cfg := by
  suffices h : ∀ (fs : List FileInfo) (acc : DocumentConversionStats × List FileInfo),
      (fs.foldl (fun acc f =>
        if oversize cfg.maxFileSize f then
          (acc.1.add_skipped f.name (skipReason f.size cfg.maxFileSize), acc.2)
        else (acc.1, acc.2 ++ [f])) acc).1.skipped =
          acc.1.skipped + (fs.filter (oversize cfg.maxFileSize)).length ∧
      (fs.foldl (fun acc f =>
        if oversize cfg.maxFileSize f then
          (acc.1.add_skipped f.name (skipReason f.size cfg.maxFileSize), acc.2)
        else (acc.1, acc.2 ++ [f])) acc).2 =
          acc.2 ++ fs.filter (fun f => !oversize cfg.maxFileSize f) by
    have h2 := h cfg.files (cfg.stats0, [])
    unfold prefilter files_skipped files_to_convert
    simpa using h2
  intro fs
  induction fs with
  | nil => intro acc; simp
  | cons f fs ih =>
    intro acc
    cases hv : oversize cfg.maxFileSize f
    · have h2 := ih (acc.1, acc.2 ++ [f])
      simp only [List.foldl_cons, hv, Bool.false_eq_true, if_false, List.filter_cons,
        Bool.not_false, if_true]
      constructor
      · exact h2.1
      · rw [h2.2]
        simp
    · have h2 := ih (acc.1.add_skipped f.name (skipReason f.size cfg.maxFileSize), acc.2)
      simp only [List.foldl_cons, hv, if_true, List.filter_cons, Bool.not_true,
        Bool.false_eq_true, if_false]
      constructor
      · rw [h2.1]
        simp only [DocumentConversionStats.add_skipped]
        simp
        omega
      · exact h2.2

theorem convert_documents_nil_eq (cfg : ConvertInput)
    (h : (prefilter cfg).2 = []) :
    convert_documents cfg =
      ⟨{ (prefilter cfg).1 with total_files := 0 }, none, [], [], [], none⟩ := by
  unfold convert_documents
  simp only [h, List.length_nil]

theorem convert_documents_cons_eq (cfg : ConvertInput) (f0 : FileInfo)
    (rest : List FileInfo) (h : (prefilter cfg).2 = f0 :: rest) :
    convert_documents cfg =
      ⟨(loopRes cfg f0 rest).st.stats, some (loopRes cfg f0 rest).st.tracker,
       (loopRes cfg f0 rest).st.usedNames, leadMsgs cfg f0 rest,
       (loopRes cfg f0 rest).blocks,
       if cfg.continueOnError = true then none else (loopRes cfg f0 rest).exc⟩ := by
  unfold convert_documents
  simp only [h]
  show (match (loopRes cfg f0 rest).exc with
    | none =>
      (⟨(loopRes cfg f0 rest).st.stats, some (loopRes cfg f0 rest).st.tracker,
        (loopRes cfg f0 rest).st.usedNames, leadMsgs cfg f0 rest,
        (loopRes cfg f0 rest).blocks, none⟩ : ConvertOutput)
    | some e =>
      if cfg.continueOnError then
        ⟨(loopRes cfg f0 rest).st.stats, some (loopRes cfg f0 rest).st.tracker,
         (loopRes cfg f0 rest).st.usedNames, leadMsgs cfg f0 rest,
         (loopRes cfg f0 rest).blocks, none⟩
      else
        ⟨(loopRes cfg f0 rest).st.stats, some (loopRes cfg f0 rest).st.tracker,
         (loopRes cfg f0 rest).st.usedNames, leadMsgs cfg f0 rest,
         (loopRes cfg f0 rest).blocks, some e⟩) = _
  cases hx : (loopRes cfg f0 rest).exc with
  | none => simp only [hx, ite_self]
  | some e => cases hc : cfg.continueOnError <;> simp [hx, hc]

theorem processItem_stats_total_files (clock : Nat → ℚ) (dir : String)
    (st : ConvState) (idx : Nat) (f : FileInfo) (r : EngineResult) :
    (processItem clock dir st idx f r).st.stats.total_files = st.stats.total_files := by
  unfold processItem trackerFinish
  cases r.status <;> cases r.saveRaises <;>
    simp [DocumentConversionStats.add_success, DocumentConversionStats.add_failure,
      DocumentConversionStats.add_partial_success]

theorem convLoop_stats_total_files (clock : Nat → ℚ) (stop : Nat → Bool) (dir : String)
    (sv : List FileInfo) :
    ∀ (steps : List EngineStep) (st : ConvState) (idx : Nat),
    (convLoop clock stop dir sv st idx steps).st.stats.total_files =
      st.stats.total_files := by
  intro steps
  induction steps with
  | nil => intro st idx; rfl
  | cons s rest ih =>
    intro st idx
    cases s with
    | crash e => rfl
    | yield r =>
      simp only [convLoop]
      by_cases hstop : stop idx
      · simp [hstop]
      · simp only [hstop, Bool.false_eq_true, if_false]
        cases hget : sv.get? (idx - 1) with
        | none => rfl
        | some f =>
          simp [ih, processItem_stats_total_files]

theorem isTerminal_false_of_kind (m : QMsg)
    (h : m.kind = MsgKind.progress ∨ m.kind = MsgKind.log ∨ m.kind = MsgKind.stats) :
    isTerminal m = false := by
  cases m <;> first | rfl | simp [QMsg.kind] at h

theorem mem_lpsShape (k : MsgKind) (x : Nat) (h : k ∈ lpsShape x) :
    k = MsgKind.progress ∨ k = MsgKind.log ∨ k = MsgKind.stats := by
  simp only [lpsShape, List.mem_append, List.mem_cons, List.mem_replicate,
    List.mem_singleton, List.not_mem_nil] at h
  tauto

theorem convert_skipped_eq (cfg : ConvertInput) :
    (convert_documents cfg).stats.skipped =
      cfg.stats0.skipped + (files_skipped cfg).length := by
  rcases hs : (prefilter cfg).2 with _ | ⟨f0, rest⟩
  · rw [convert_documents_nil_eq cfg hs]
    exact (prefilter_spec cfg).1
  · rw [convert_documents_cons_eq cfg f0 rest hs]
    show (loopRes cfg f0 rest).st.stats.skipped = _
    unfold loopRes
    rw [convLoop_stats_skipped]
    exact (prefilter_spec cfg).1

theorem convert_total_files_eq (cfg : ConvertInput) :
    (convert_documents cfg).stats.total_files = (files_to_convert cfg).length := by
  rcases hs : (prefilter cfg).2 with _ | ⟨f0, rest⟩
  · rw [convert_documents_nil_eq cfg hs]
    show (0 : Nat) = _
    rw [← (prefilter_spec cfg).2, hs]
    rfl
  · rw [convert_documents_cons_eq cfg f0 rest hs]
    show (loopRes cfg f0 rest).st.stats.total_files = _
    unfold loopRes
    rw [convLoop_stats_total_files]
    show (f0 :: rest).length = (files_to_convert cfg).length
    rw [← (prefilter_spec cfg).2, hs]

theorem convert_tracker_eq (cfg : ConvertInput) :
    (convert_documents cfg).tracker?.map (fun t => (t.stats.skipped, t.total_files)) =
      (convert_documents cfg).tracker?.map
        (fun _ => (0, (files_to_convert cfg).length)) := by
  rcases hs : (prefilter cfg).2 with _ | ⟨f0, rest⟩
  · rw [convert_documents_nil_eq cfg hs]
    rfl
  · rw [convert_documents_cons_eq cfg f0 rest hs]
    show some ((loopRes cfg f0 rest).st.tracker.stats.skipped,
        (loopRes cfg f0 rest).st.tracker.total_files) =
      some ((0 : Nat), (files_to_convert cfg).length)
    unfold loopRes
    rw [convLoop_tracker_skipped, convLoop_tracker_total_files]
    show some ((0 : Nat), (f0 :: rest).length) =
      some ((0 : Nat), (files_to_convert cfg).length)
    rw [← (prefilter_spec cfg).2, hs]

theorem convert_exc_continue (cfg : ConvertInput) (e : String)
    (h : (convert_documents cfg).exc = some e) : cfg.continueOnError = false := by
  rcases hs : (prefilter cfg).2 with _ | ⟨f0, rest⟩
  · rw [convert_documents_nil_eq cfg hs] at h
    exact absurd h (by simp)
  · rw [convert_documents_cons_eq cfg f0 rest hs] at h
    by_cases hc : cfg.continueOnError = true
    · simp [hc] at h
    · simp at hc
      exact hc

theorem convert_blocks_kinds (cfg : ConvertInput) :
    ∃ xs : List Nat,
      (convert_documents cfg).blocks.map (fun b => b.map QMsg.kind) =
        xs.map lpsShape := by
  rcases hs : (prefilter cfg).2 with _ | ⟨f0, rest⟩
  · rw [convert_documents_nil_eq cfg hs]
    exact ⟨[], rfl⟩
  · rw [convert_documents_cons_eq cfg f0 rest hs]
    show ∃ xs, (loopRes cfg f0 rest).blocks.map _ = xs.map lpsShape
    unfold loopRes
    exact convLoop_block_kinds _ _ _ _ _ _ _

theorem convert_usedNames_nodup (cfg : ConvertInput) :
    (convert_documents cfg).usedNames.Nodup := by
  rcases hs : (prefilter cfg).2 with _ | ⟨f0, rest⟩
  · rw [convert_documents_nil_eq cfg hs]
    exact List.nodup_nil
  · rw [convert_documents_cons_eq cfg f0 rest hs]
    show (loopRes cfg f0 rest).st.usedNames.Nodup
    unfold loopRes
    exact convLoop_usedNames_nodup _ _ _ _ _ _ _ List.nodup_nil

theorem convert_trace_clean (cfg : ConvertInput) :
    ∀ m ∈ (convert_documents cfg).trace, isTerminal m = false := by
  intro m hm
  unfold ConvertOutput.trace at hm
  rcases hs : (prefilter cfg).2 with _ | ⟨f0, rest⟩
  · rw [convert_documents_nil_eq cfg hs] at hm
    simp at hm
  · rw [convert_documents_cons_eq cfg f0 rest hs] at hm
    rw [List.mem_append] at hm
    rcases hm with hm | hm
    · have : m = QMsg.log "ℹ"
          ("Начало конвертации " ++ Nat.repr (f0 :: rest).length ++ " файлов...") "INFO" ∨
          m = QMsg.progress
            ((stZero cfg (f0 :: rest) f0).tracker.to_progress_message (cfg.clock 2)) := by
        simpa [leadMsgs] using hm
      rcases this with rfl | rfl <;> rfl
    · rw [List.mem_flatten] at hm
      obtain ⟨b, hb, hmb⟩ := hm
      obtain ⟨xs, hxs⟩ := convert_blocks_kinds cfg
      rw [show (convert_documents cfg).blocks = (loopRes cfg f0 rest).blocks from by
        rw [convert_documents_cons_eq cfg f0 rest hs]] at hxs
      have hmapmem : b.map QMsg.kind ∈
          (loopRes cfg f0 rest).blocks.map (fun b => b.map QMsg.kind) :=
        List.mem_map_of_mem _ hb
      rw [hxs] at hmapmem
      obtain ⟨x, _, hbx⟩ := List.mem_map.1 hmapmem
      have hkmem : m.kind ∈ b.map QMsg.kind := List.mem_map_of_mem _ hmb
      rw [← hbx] at hkmem
      exact isTerminal_false_of_kind m (mem_lpsShape _ _ hkmem)

theorem conversion_worker_none (cfg : ConvertInput)
    (h : (convert_documents { cfg with stats0 := DocumentConversionStats.init }).exc = none) :
    conversion_worker cfg =
      QMsg.log "ℹ" "Setting up document converter..." "INFO" ::
        ((convert_documents { cfg with stats0 := DocumentConversionStats.init }).trace ++
          [QMsg.complete
            ⟨(convert_documents { cfg with stats0 := DocumentConversionStats.init }).stats.successful,
             (convert_documents { cfg with stats0 := DocumentConversionStats.init }).stats.partial_success,
             (convert_documents { cfg with stats0 := DocumentConversionStats.init }).stats.failed,
             (convert_documents { cfg with stats0 := DocumentConversionStats.init }).stats.skipped⟩]) := by
  unfold conversion_worker
  simp only [h]

theorem conversion_worker_some (cfg : ConvertInput) (e : String)
    (h : (convert_documents { cfg with stats0 := DocumentConversionStats.init }).exc = some e) :
    conversion_worker cfg =
      QMsg.log "ℹ" "Setting up document converter..." "INFO" ::
        ((convert_documents { cfg with stats0 := DocumentConversionStats.init }).trace ++
          [QMsg.error e]) := by
  unfold conversion_worker
  simp only [h]

theorem countTerminal_one (l : List QMsg) (x t : QMsg) (hx : isTerminal x = false)
    (hl : ∀ m ∈ l, isTerminal m = false) (ht : isTerminal t = true) :
    countTerminal (x :: (l ++ [t])) = 1 := by
  unfold countTerminal
  have hfl : l.filter isTerminal = [] := by
    rw [List.filter_eq_nil_iff]
    intro m hm
    simp [hl m hm]
  simp [List.filter_cons, List.filter_append, hx, ht, hfl]

theorem getLast_cons_concat (x t : QMsg) (l : List QMsg) :
    (x :: (l ++ [t])).getLast? = some t := by
  rw [← List.cons_append]
  exact List.getLast?_concat _

/-- Claim C1: every worker run puts exactly one terminal message on the queue,
it is the last message, it is `complete` exactly when `convert_documents`
returns normally and `error e` when the exception `e` escapes it, and an
exception escapes the modelled conversion only when `CONTINUE_ON_ERROR` is
disabled. (The worker's `except Exception` handler is the totality of
`conversion_worker`; filesystem faults outside the modelled loop, e.g. in
`mkdir` or `stat`, are out of scope.) -/
theorem claim_C1_one_terminal (cfg : ConvertInput) :
    countTerminal (conversion_worker cfg) = 1 ∧
    (∃ m, (conversion_worker cfg).getLast? = some m ∧ isTerminal m = true) ∧
    ((convert_documents { cfg with stats0 := DocumentConversionStats.init }).exc = none →
      ∃ d, (conversion_worker cfg).getLast? = some (QMsg.complete d)) ∧
    (∀ e, (convert_documents { cfg with stats0 := DocumentConversionStats.init }).exc = some e →
      (conversion_worker cfg).getLast? = some (QMsg.error e) ∧
        cfg.continueOnError = false) := by
  cases hx : (convert_documents { cfg with stats0 := DocumentConversionStats.init }).exc with
  | none =>
    have hw := conversion_worker_none cfg hx
    have hclean := convert_trace_clean { cfg with stats0 := DocumentConversionStats.init }
    refine ⟨?_, ?_, ?_, ?_⟩
    · rw [hw]
      exact countTerminal_one _ _ _ rfl hclean rfl
    · rw [hw]
      exact ⟨_, getLast_cons_concat _ _ _, rfl⟩
    · intro _
      rw [hw]
      exact ⟨_, getLast_cons_concat _ _ _⟩
    · intro e he
      exact absurd he (by simp)
  | some e =>
    have hw := conversion_worker_some cfg e hx
    have hclean := convert_trace_clean { cfg with stats0 := DocumentConversionStats.init }
    refine ⟨?_, ?_, ?_, ?_⟩
    · rw [hw]
      exact countTerminal_one _ _ _ rfl hclean rfl
    · rw [hw]
      exact ⟨_, getLast_cons_concat _ _ _, rfl⟩
    · intro hnone
      exact absurd hnone (by simp)
    · intro e2 he2
      have he3 := Option.some.inj he2
      subst he3
      refine ⟨?_, ?_⟩
      · rw [hw]
        exact getLast_cons_concat _ _ _
      · exact convert_exc_continue { cfg with stats0 := DocumentConversionStats.init } e hx

/-- Witness for `claim_C1_one_terminal` at a concrete successful run. -/
theorem claim_C1_witness :
    (convert_documents { cfgA with stats0 := DocumentConversionStats.init }).exc = none ∧
    ∃ d, (conversion_worker cfgA).getLast? = some (QMsg.complete d) :=
  ⟨by decide, (claim_C1_one_terminal cfgA).2.2.1 (by decide)⟩

/-- Claim C2 (amended): the callback trace decomposes as the pre-loop messages
followed by one contiguous block per processed item, in item order (so all
events for item `i` precede any event for item `i+1`); and each item's block
has the `'type'` pattern Progress (at item start), the outcome Log (plus one
Log per recorded sub-error for a saved partial success), then Stats, then
Progress. The spec's per-item order "Log, then Progress, then Stats" is
refuted by `claim_C2_counterexample`: after `record_outcome` the code emits
the stats message *before* the progress message. -/
theorem claim_C2_event_order (cfg : ConvertInput) :
    (convert_documents cfg).trace =
      (convert_documents cfg).leading ++ (convert_documents cfg).blocks.flatten ∧
    ∃ xs : List Nat,
      (convert_documents cfg).blocks.map (fun b => b.map QMsg.kind) =
        xs.map lpsShape :=
  ⟨rfl, convert_blocks_kinds cfg⟩

/-- Claim C2, counterexample to the order stated in the claim: for a run with
one successfully converted item, the item's events have kinds
`[progress, log, stats, progress]`, and `[log, progress, stats]` is not a
subsequence of them — the Stats event precedes the final Progress event. -/
theorem claim_C2_counterexample :
    (convert_documents cfgA).blocks.map (fun b => b.map QMsg.kind) =
      [[MsgKind.progress, MsgKind.log, MsgKind.stats, MsgKind.progress]] ∧
    ¬ (∀ b ∈ (convert_documents cfgA).blocks,
        isSubseqOf [MsgKind.log, MsgKind.progress, MsgKind.stats]
          (b.map QMsg.kind) = true) := by
  decide

/-- Claim C3 (amended): items excluded by the size pre-filter are recorded as
skipped in the batch stats object (`DocumentConversionStats`), not in the
`ProgressTracker` (whose skipped counter stays `0`); they are excluded from
`total_files`, which is set to the number of surviving files; the final stats
(and hence the worker's `complete` message, built from these counters) still
carry them in `skipped`. The original claim, that they count toward
`total_files` and `total_processed`, is refuted by
`claim_C3_counterexample`. -/
theorem claim_C3_prefilter_accounting (cfg : ConvertInput) :
    (convert_documents cfg).stats.skipped =
      cfg.stats0.skipped + (files_skipped cfg).length ∧
    (convert_documents cfg).stats.total_files = (files_to_convert cfg).length ∧
    (convert_documents cfg).tracker?.map (fun t => (t.stats.skipped, t.total_files)) =
      (convert_documents cfg).tracker?.map
        (fun _ => (0, (files_to_convert cfg).length)) :=
  ⟨convert_skipped_eq cfg, convert_total_files_eq cfg, convert_tracker_eq cfg⟩

/-- Claim C3, counterexample to the claim as stated: with one oversize file and
one converted file, the skipped item appears in `stats.skipped` but
`stats.total_files` is `1`, not `2`, and the tracker records neither a skip
nor any contribution of the skipped file to `total_processed`. -/
theorem claim_C3_counterexample :
    (convert_documents cfgB).stats.skipped = 1 ∧
    (convert_documents cfgB).stats.total_files = 1 ∧
    ¬ ((convert_documents cfgB).stats.total_files = cfgB.files.length) ∧
    (convert_documents cfgB).tracker?.map (fun t => t.stats.skipped) = some 0 ∧
    (convert_documents cfgB).tracker?.map (fun t => t.stats.total_processed) =
      some 1 := by
  decide

/-- Claim C9: `generate_unique_output_name` terminates (the bounded search
always finds a candidate), returns a name that was not yet in `used_names`,
and adds it to the set; consequently the `used_names` set a run ends with —
which contains every output name generated during the run — is duplicate-free,
so output filenames within a single run are pairwise distinct. -/
theorem claim_C9_unique_names :
    (∀ dir base used, ∃ name,
        generate_unique_output_name dir base used = (name, name :: used) ∧
          name ∉ used) ∧
    (∀ cfg, (convert_documents cfg).usedNames.Nodup) :=
  ⟨generate_unique_output_name_spec, convert_usedNames_nodup⟩

theorem convLoop_stop_take (clock : Nat → ℚ) (stop : Nat → Bool) (dir : String)
    (sv : List FileInfo) (k : Nat) (hk : stop k = true) :
    ∀ (steps : List EngineStep) (st : ConvState) (idx : Nat), 1 ≤ idx → idx ≤ k →
    (∀ i, idx ≤ i → i < k → stop i = false) →
    (∀ e, steps.get? (k - idx) ≠ some (EngineStep.crash e)) →
    convLoop clock stop dir sv st idx steps =
      convLoop clock (fun _ => false) dir sv st idx (steps.take (k - idx)) := by
  intro steps
  induction steps with
  | nil =>
    intro st idx _ _ _ _
    rw [List.take_nil]
    rfl
  | cons s rest ih =>
    intro st idx h1 h2 hbef hcr
    by_cases hik : idx = k
    · subst hik
      have ht : (s :: rest).take (idx - idx) = [] := by
        simp
      rw [ht]
      cases s with
      | crash e =>
        exfalso
        exact hcr e (by simp)
      | yield r =>
        show convLoop clock stop dir sv st idx (EngineStep.yield r :: rest) =
          convLoop clock (fun _ => false) dir sv st idx []
        simp [convLoop, hk]
    · have hlt : idx < k := by omega
      have hshift : k - idx = (k - (idx + 1)) + 1 := by omega
      have htake : (s :: rest).take (k - idx) = s :: rest.take (k - (idx + 1)) := by
        rw [hshift, List.take_succ_cons]
      rw [htake]
      cases s with
      | crash e => simp [convLoop]
      | yield r =>
        have hstop : stop idx = false := hbef idx (le_refl idx) hlt
        simp only [convLoop, hstop, Bool.false_eq_true, if_false]
        cases hget : sv.get? (idx - 1) with
        | none => rfl
        | some f =>
          have hcr2 : ∀ e, rest.get? (k - (idx + 1)) ≠ some (EngineStep.crash e) := by
            intro e he
            apply hcr e
            rw [hshift]
            simpa using he
          have ihh := ih (processItem clock dir st idx f r).st (idx + 1)
            (by omega) (by omega) (fun i hi1 hi2 => hbef i (by omega) hi2) hcr2
          dsimp only
          rw [ihh]

theorem convLoop_all_yields (clock : Nat → ℚ) (stop : Nat → Bool) (dir : String)
    (sv : List FileInfo) (hstopF : ∀ i, stop i = false) :
    ∀ (steps : List EngineStep) (st : ConvState) (idx : Nat), 1 ≤ idx →
    (∀ i, i < steps.length → ∃ r, steps.get? i = some (EngineStep.yield r)) →
    idx - 1 + steps.length ≤ sv.length →
    (convLoop clock stop dir sv st idx steps).exc = none ∧
    (convLoop clock stop dir sv st idx steps).blocks.length = steps.length := by
  intro steps
  induction steps with
  | nil => intro st idx _ _ _; exact ⟨rfl, rfl⟩
  | cons s rest ih =>
    intro st idx h1 hy hlen
    obtain ⟨r, hr⟩ := hy 0 (by simp)
    have hs : s = EngineStep.yield r := by simpa using hr
    subst hs
    simp only [convLoop, hstopF idx, Bool.false_eq_true, if_false]
    have hgetlt : idx - 1 < sv.length := by
      simp only [List.length_cons] at hlen
      omega
    cases hget : sv.get? (idx - 1) with
    | none =>
      exfalso
      have := List.get?_eq_none.1 hget
      omega
    | some f =>
      have ihh := ih (processItem clock dir st idx f r).st (idx + 1) (by omega)
        (fun i hi => by
          have h2 := hy (i + 1) (by simpa using Nat.succ_lt_succ hi)
          simpa using h2)
        (by
          simp only [List.length_cons] at hlen
          omega)
      refine ⟨ihh.1, ?_⟩
      simp [ihh.2]

theorem convert_stop_eq (cfg : ConvertInput) (k : Nat) (hk1 : 1 ≤ k)
    (hstop : cfg.stopCheck k = true)
    (hbef : ∀ i, 1 ≤ i → i < k → cfg.stopCheck i = false)
    (hcr : ∀ e, cfg.steps.get? (k - 1) ≠ some (EngineStep.crash e)) :
    convert_documents cfg =
      convert_documents
        { cfg with steps := cfg.steps.take (k - 1), stopCheck := fun _ => false } := by
  have hpre :
      prefilter { cfg with steps := cfg.steps.take (k - 1), stopCheck := fun _ => false } =
        prefilter cfg := rfl
  rcases hs : (prefilter cfg).2 with _ | ⟨f0, rest⟩
  · rw [convert_documents_nil_eq cfg hs,
      convert_documents_nil_eq _ (by rw [hpre]; exact hs)]
    rw [hpre]
  · rw [convert_documents_cons_eq cfg f0 rest hs,
      convert_documents_cons_eq _ f0 rest (by rw [hpre]; exact hs)]
    have hloop : loopRes cfg f0 rest =
        loopRes { cfg with steps := cfg.steps.take (k - 1), stopCheck := fun _ => false } f0 rest := by
      show convLoop cfg.clock cfg.stopCheck cfg.outputDir (f0 :: rest)
          (stZero cfg (f0 :: rest) f0) 1 cfg.steps =
        convLoop cfg.clock (fun _ => false) cfg.outputDir (f0 :: rest)
          (stZero cfg (f0 :: rest) f0) 1 (cfg.steps.take (k - 1))
      exact convLoop_stop_take cfg.clock cfg.stopCheck cfg.outputDir (f0 :: rest) k
        hstop cfg.steps (stZero cfg (f0 :: rest) f0) 1 (le_refl 1) hk1
        (fun i hi1 hi2 => hbef i hi1 hi2) hcr
    rw [hloop]
    rfl

theorem convert_all_yields (cfg : ConvertInput)
    (hstopF : ∀ i, cfg.stopCheck i = false)
    (hy : ∀ i, i < cfg.steps.length → ∃ r, cfg.steps.get? i = some (EngineStep.yield r))
    (hlen : cfg.steps.length ≤ (files_to_convert cfg).length) :
    (convert_documents cfg).exc = none ∧
    (convert_documents cfg).blocks.length = cfg.steps.length := by
  rcases hs : (prefilter cfg).2 with _ | ⟨f0, rest⟩
  · rw [convert_documents_nil_eq cfg hs]
    have h0 : (files_to_convert cfg).length = 0 := by
      rw [← (prefilter_spec cfg).2, hs]
      rfl
    refine ⟨rfl, ?_⟩
    show ([] : List (List QMsg)).length = cfg.steps.length
    simp
    omega
  · rw [convert_documents_cons_eq cfg f0 rest hs]
    have hsv : files_to_convert cfg = f0 :: rest := by
      rw [← (prefilter_spec cfg).2, hs]
    have hlen2 : 1 - 1 + cfg.steps.length ≤ (f0 :: rest).length := by
      rw [hsv] at hlen
      omega
    have hloop := convLoop_all_yields cfg.clock cfg.stopCheck cfg.outputDir
      (f0 :: rest) hstopF cfg.steps (stZero cfg (f0 :: rest) f0) 1 (le_refl 1) hy hlen2
    constructor
    · show (if cfg.continueOnError = true then none else (loopRes cfg f0 rest).exc) = none
      have hexc : (loopRes cfg f0 rest).exc = none := hloop.1
      rw [hexc, ite_self]
    · show (loopRes cfg f0 rest).blocks.length = cfg.steps.length
      exact hloop.2

/-- Claim C7: once the main loop observes `stop_check()` true at the top of
iteration `k` (the stop flag is first seen set there, the engine stream really
reaches that iteration: its first `k` steps are yields and there are enough
surviving files), the whole run — state, stats and emitted messages — equals
the run whose engine stream is truncated to the first `k-1` results with no
stop request at all: no outcome is recorded and no event is emitted for any
item from index `k` on; exactly `k-1` item blocks are emitted; and the worker
still terminates with exactly one terminal message, a `complete` whose stats
are those of the truncated run. -/
theorem claim_C7_stop_clean (cfg : ConvertInput) (k : Nat) (hk1 : 1 ≤ k)
    (hstop : cfg.stopCheck k = true)
    (hbef : ∀ i, 1 ≤ i → i < k → cfg.stopCheck i = false)
    (hy : ∀ i, i < k → ∃ r, cfg.steps.get? i = some (EngineStep.yield r))
    (hsurv : k - 1 ≤ (files_to_convert cfg).length) :
    convert_documents cfg =
      convert_documents
        { cfg with steps := cfg.steps.take (k - 1), stopCheck := fun _ => false } ∧
    conversion_worker cfg =
      conversion_worker
        { cfg with steps := cfg.steps.take (k - 1), stopCheck := fun _ => false } ∧
    (convert_documents cfg).blocks.length = k - 1 ∧
    countTerminal (conversion_worker cfg) = 1 ∧
    ∃ d, (conversion_worker cfg).getLast? = some (QMsg.complete d) := by
  have hcr : ∀ e, cfg.steps.get? (k - 1) ≠ some (EngineStep.crash e) := by
    intro e he
    obtain ⟨r, hr⟩ := hy (k - 1) (by omega)
    rw [hr] at he
    exact absurd (Option.some.inj he) (by simp)
  have hconv := convert_stop_eq cfg k hk1 hstop hbef hcr
  have hconvI := convert_stop_eq { cfg with stats0 := DocumentConversionStats.init }
    k hk1 hstop hbef hcr
  have hklen : k - 1 < cfg.steps.length := by
    obtain ⟨r, hr⟩ := hy (k - 1) (by omega)
    exact (List.get?_eq_some.1 hr).1
  have htakelen : (cfg.steps.take (k - 1)).length = k - 1 := by
    rw [List.length_take]
    exact Nat.min_eq_left (by omega)
  have hy2 : ∀ i,
      i < ({ cfg with steps := cfg.steps.take (k - 1), stopCheck := fun _ => false } :
        ConvertInput).steps.length →
      ∃ r, ({ cfg with steps := cfg.steps.take (k - 1), stopCheck := fun _ => false } :
        ConvertInput).steps.get? i = some (EngineStep.yield r) := by
    intro i hi
    have hi2 : i < k - 1 := by
      rw [← htakelen]
      exact hi
    obtain ⟨r, hr⟩ := hy i (by omega)
    refine ⟨r, ?_⟩
    show (cfg.steps.take (k - 1)).get? i = some (EngineStep.yield r)
    rw [List.get?_take hi2]
    exact hr
  have hlen2 : ({ cfg with steps := cfg.steps.take (k - 1), stopCheck := fun _ => false } :
      ConvertInput).steps.length ≤
      (files_to_convert
        { cfg with steps := cfg.steps.take (k - 1), stopCheck := fun _ => false }).length := by
    show (cfg.steps.take (k - 1)).length ≤ (files_to_convert cfg).length
    rw [htakelen]
    exact hsurv
  have hyall := convert_all_yields
    { cfg with steps := cfg.steps.take (k - 1), stopCheck := fun _ => false }
    (fun _ => rfl) hy2 hlen2
  have hexcI :
      (convert_documents { cfg with stats0 := DocumentConversionStats.init }).exc =
        none := by
    rw [hconvI]
    exact (convert_all_yields
      { cfg with steps := cfg.steps.take (k - 1), stopCheck := fun _ => false, stats0 := DocumentConversionStats.init }
      (fun _ => rfl) hy2 hlen2).1
  have hworker : conversion_worker cfg =
      conversion_worker
        { cfg with steps := cfg.steps.take (k - 1), stopCheck := fun _ => false } := by
    unfold conversion_worker
    rw [hconvI]
  have hw := conversion_worker_none cfg hexcI
  refine ⟨hconv, hworker, ?_, ?_, ?_⟩
  · rw [hconv]
    rw [hyall.2]
    exact htakelen
  · rw [hw]
    exact countTerminal_one _ _ _ rfl
      (convert_trace_clean { cfg with stats0 := DocumentConversionStats.init }) rfl
  · rw [hw]
    exact ⟨_, getLast_cons_concat _ _ _⟩

/-- Witness for `claim_C7_stop_clean` at `cfgC` with the stop observed at
iteration 2: one item block is emitted and the worker ends in one terminal
`complete`. -/
theorem claim_C7_witness :
    ((1 ≤ 2 ∧ cfgC.stopCheck 2 = true) ∧
      (∀ i, 1 ≤ i → i < 2 → cfgC.stopCheck i = false) ∧
      (∀ i, i < 2 → ∃ r, cfgC.steps.get? i = some (EngineStep.yield r)) ∧
      2 - 1 ≤ (files_to_convert cfgC).length) ∧
    ((convert_documents cfgC).blocks.length = 2 - 1 ∧
      countTerminal (conversion_worker cfgC) = 1) := by
  have hbef : ∀ i, 1 ≤ i → i < 2 → cfgC.stopCheck i = false := by
    intro i h1 h2
    have hi : i = 1 := by omega
    subst hi
    rfl
  have hy : ∀ i, i < 2 → ∃ r, cfgC.steps.get? i = some (EngineStep.yield r) := by
    intro i hi
    match i, hi with
    | 0, _ => exact ⟨_, rfl⟩
    | 1, _ => exact ⟨_, rfl⟩
  have h := claim_C7_stop_clean cfgC 2 (by decide) (by decide) hbef hy (by decide)
  exact ⟨⟨⟨by decide, by decide⟩, hbef, hy, by decide⟩, h.2.2.1, h.2.2.2.1⟩
